import Mathlib

/-!
# Verification of `gdbserver/linux-riscv-low.cc` (cheri-linux/gdb)

A shallow embedding of the RISC-V/Linux low-level gdbserver target:
the breakpoint codec (`breakpoint_kind_from_pc`, `sw_breakpoint_from_kind`,
`low_breakpoint_at`), the register codec (`riscv_fill_gregset`,
`riscv_store_gregset`, `riscv_fill_fpregset`, `riscv_store_fpregset`,
`low_fetch_register`), the PC accessors (`low_get_pc`, `low_set_pc`) and
the static regset table (`riscv_regsets`).

Modelling conventions:
* two-byte memory reads are a function `Nat → Option Nat` (address to the
  16-bit value read, `none` on read failure), mirroring
  `target_read_memory` returning nonzero on failure;
* a register cache is a function `Nat → Nat → Nat` (register number and
  byte index to byte value); a transfer buffer is `Nat → Nat` (byte
  address to byte value);
* the target description is a structure holding the feature strings, the
  name-to-register-number map (`find_regno`) and the per-register byte
  size (`register_size`);
* C `for` loops over register indices become structural recursions
  (`fillRegs`, `supplyRegs`) that apply the same per-register operation
  in the same ascending order.
-/

/-- Register-name string `"zero"` (integer zero register). -/
def regname_zero : String := "zero"

/-- Register-name string `"pc"` (integer program counter). -/
def regname_pc : String := "pc"

/-- Register-name string `"cnull"` (capability null register). -/
def regname_cnull : String := "cnull"

/-- Register-name string `"pcc"` (capability program counter). -/
def regname_pcc : String := "pcc"

/-- Register-name string `"ddc"` (default data capability). -/
def regname_ddc : String := "ddc"

/-- Register-name string `"ft0"` (first floating-point register). -/
def regname_ft0 : String := "ft0"

/-- Register-name string `"fcsr"` (floating-point control/status register). -/
def regname_fcsr : String := "fcsr"

/-- Feature string `"org.gnu.gdb.riscv.cheri"` (capability extension). -/
def feature_cheri : String := "org.gnu.gdb.riscv.cheri"

/-- The target description (`struct target_desc`) as consumed by this file:
its feature strings, the register-name-to-number map and the per-register
byte sizes. -/
structure target_desc where
  features : List String
  regno : String → Nat
  regsize : Nat → Nat

/-- `tdesc_contains_feature (tdesc, name)`. -/
def tdesc_contains_feature (td : target_desc) (name : String) : Bool :=
  td.features.contains name

/-- `find_regno (tdesc, name)`. -/
def find_regno (td : target_desc) (name : String) : Nat :=
  td.regno name

/-- `register_size (tdesc, regno)`. -/
def register_size (td : target_desc) (regno : Nat) : Nat :=
  td.regsize regno

/-! ## Breakpoint patterns and the breakpoint codec -/

/-- `static const uint16_t riscv_ibreakpoint[] = { 0x0073, 0x0010 };`
(the 4-byte standard `ebreak`, as two 16-bit halves). -/
def riscv_ibreakpoint : List Nat := [0x0073, 0x0010]

/-- `static const uint16_t riscv_cbreakpoint = 0x9002;`
(the 2-byte compact `c.ebreak`). -/
def riscv_cbreakpoint : Nat := 0x9002

/-- `sizeof (riscv_ibreakpoint)` = 2 × 2 bytes. -/
def sizeof_riscv_ibreakpoint : Nat := 4

/-- `sizeof (riscv_cbreakpoint)` = 2 bytes. -/
def sizeof_riscv_cbreakpoint : Nat := 2

/-- Modelled from the spec: `riscv_insn_length` (declared in
`include/opcode/riscv.h`, which is not under `src/`) decodes the low bits
of the first 16 bits of an instruction into its encoded length: low two
bits ≠ 3 means a compact (2-byte) instruction, otherwise a standard
(4-byte) instruction.  (The real decoder also recognises longer >4-byte
encodings via further low bits; none of the instruction values this file
reasons about fall in that range.) -/
def riscv_insn_length (insn : Nat) : Nat :=
  if insn % 4 ≠ 3 then 2 else 4

/-- `riscv_target::breakpoint_kind_from_pc`.  `read2 a` models a 2-byte
`target_read_memory` at address `a` (`none` = failure).  The condition is
a literal transcription of the source:
`riscv_insn_length (buf.insn == sizeof (riscv_ibreakpoint))` applies the
length decoder to the *boolean value* of the comparison (0 or 1), and the
C `&&` then tests the returned length for being nonzero. -/
def breakpoint_kind_from_pc (read2 : Nat → Option Nat) (pc : Nat) : Nat :=
  match read2 pc with
  | some insn =>
      if riscv_insn_length (if insn = sizeof_riscv_ibreakpoint then 1 else 0) ≠ 0 then
        sizeof_riscv_ibreakpoint
      else
        sizeof_riscv_cbreakpoint
  | none => sizeof_riscv_cbreakpoint

/-- `riscv_target::sw_breakpoint_from_kind`.  Returns the pattern the
returned pointer addresses (as its list of 16-bit units) together with
the value stored through `*size`, which the source sets to `kind`
unconditionally (`*size = kind;`). -/
def sw_breakpoint_from_kind (kind : Int) : List Nat × Int :=
  (if kind = (4 : Int) then riscv_ibreakpoint else [riscv_cbreakpoint], kind)

/-- `riscv_target::low_breakpoint_at`.  Reads 2 bytes at `pc`; on success
compares against the compact pattern, and otherwise against the first
half of the standard pattern followed by a second 2-byte read at `pc + 2`
compared against the second half.  Any failed read yields `false`. -/
def low_breakpoint_at (read2 : Nat → Option Nat) (pc : Nat) : Bool :=
  match read2 pc with
  | none => false
  | some insn =>
      if insn = riscv_cbreakpoint then
        true
      else if insn = riscv_ibreakpoint.getD 0 0 then
        match read2 (pc + sizeof_riscv_cbreakpoint) with
        | none => false
        | some insn2 => insn2 = riscv_ibreakpoint.getD 1 0
      else
        false

/-! ## Theorems: breakpoint codec (claims C1, C2, C3) -/

/-- C1.  The claim states that `breakpoint_kind_from_pc` decodes the low
bits of the 2 bytes read and returns 4 exactly when the decoded
instruction length is 4 and 2 exactly when the instruction is compact.
The code instead applies `riscv_insn_length` to the boolean value of
`buf.insn == sizeof (riscv_ibreakpoint)` (0 or 1), both of which decode
to the nonzero length 2, so the branch is taken for *every* successful
read: at the compact instruction 0x9002 (`c.ebreak`, decoded length 2)
the code returns 4, diverging from the claim; likewise at 0x0001; a
failed read returns 2. -/
theorem C1_breakpoint_kind_bug :
    breakpoint_kind_from_pc (fun _ => some 0x9002) 0 = 4 ∧
    riscv_insn_length 0x9002 = 2 ∧
    breakpoint_kind_from_pc (fun _ => some 0x0001) 0 = 4 ∧
    breakpoint_kind_from_pc (fun _ => none) 0 = 2 := by
  decide

/-- C2 counterexample.  The claim says every kind not equal to 4 reports
size 2; the source stores `*size = kind;`, so kind 3 reports size 3 (with
the compact pattern). -/
theorem C2_size_counterexample :
    (sw_breakpoint_from_kind 3).2 = 3 ∧ ¬ (sw_breakpoint_from_kind 3).2 = 2 ∧
    (sw_breakpoint_from_kind 3).1 = [riscv_cbreakpoint] := by
  decide

/-- C2 (amended).  `sw_breakpoint_from_kind 4` returns the 4-byte standard
trap pattern, and every other kind returns the 2-byte compact trap
pattern; the reported size is always the requested kind itself (hence
size 2 for kind 2). -/
theorem C2_sw_breakpoint_from_kind (k : Int) :
    sw_breakpoint_from_kind 4 = (riscv_ibreakpoint, 4) ∧
    (k ≠ 4 → sw_breakpoint_from_kind k = ([riscv_cbreakpoint], k)) := by
  constructor
  · decide
  · intro hk
    simp [sw_breakpoint_from_kind, hk]

/-- C2 witness: the amended statement at the concrete kind 2. -/
theorem C2_sw_breakpoint_from_kind_witness :
    sw_breakpoint_from_kind 2 = ([riscv_cbreakpoint], 2) :=
  (C2_sw_breakpoint_from_kind 2).2 (by decide)

/-- C3.  `low_breakpoint_at` returns true iff the 2 bytes at `pc` read
successfully and equal the compact trap pattern 0x9002, or they equal the
first half 0x0073 of the standard pattern and the following 2 bytes also
read successfully and equal its second half 0x0010; in every other case
(including any read failure) it returns false.  Moreover it consults
memory only at `pc` and `pc + 2` (at most two bounded reads): its result
depends on the read function only through those two addresses. -/
theorem C3_low_breakpoint_at_iff (read2 : Nat → Option Nat) (pc : Nat) :
    (low_breakpoint_at read2 pc = true ↔
      (read2 pc = some riscv_cbreakpoint ∨
        (read2 pc = some 0x0073 ∧ read2 (pc + 2) = some 0x0010))) ∧
    (∀ r2 : Nat → Option Nat, read2 pc = r2 pc → read2 (pc + 2) = r2 (pc + 2) →
      low_breakpoint_at read2 pc = low_breakpoint_at r2 pc) := by
  constructor
  · unfold low_breakpoint_at
    simp only [sizeof_riscv_cbreakpoint]
    cases h : read2 pc with
    | none => simp
    | some insn =>
      by_cases h1 : insn = 0x9002
      · simp [riscv_cbreakpoint, h1]
      · by_cases h2 : insn = 0x0073
        · cases h3 : read2 (pc + 2) with
          | none => simp [riscv_cbreakpoint, riscv_ibreakpoint, h1, h2, h3]
          | some insn2 => simp [riscv_cbreakpoint, riscv_ibreakpoint, h1, h2, h3]
        · simp [riscv_cbreakpoint, riscv_ibreakpoint, h1, h2]
  · intro r2 hA hB
    unfold low_breakpoint_at
    simp only [sizeof_riscv_cbreakpoint]
    rw [hA, hB]

/-- C3 witness: the characterisation and the two-read locality applied at
concrete read functions. -/
theorem C3_low_breakpoint_at_witness :
    low_breakpoint_at (fun _ => some 0x9002) 0 = true ∧
    low_breakpoint_at (fun a => if a ≤ 2 then some 0x9002 else none) 0 =
      low_breakpoint_at (fun _ => some 0x9002) 0 := by
  constructor
  · exact (C3_low_breakpoint_at_iff (fun _ => some 0x9002) 0).1.mpr (Or.inl rfl)
  · exact (C3_low_breakpoint_at_iff (fun a => if a ≤ 2 then some 0x9002 else none) 0).2
      (fun _ => some 0x9002) (by decide) (by decide)

/-! ## Register caches, transfer buffers and the register primitives -/

/-- A register cache: register number and byte index to byte value. -/
abbrev Regcache := Nat → Nat → Nat

/-- A transfer buffer: byte address to byte value. -/
abbrev Buf := Nat → Nat

/-- `collect_register (regcache, regno, buf + off)`: copy the register's
`register_size` bytes from the cache into the buffer at offset `off`. -/
def collect_register (td : target_desc) (rc : Regcache) (regno : Nat)
    (buf : Buf) (off : Nat) : Buf :=
  fun a => if off ≤ a ∧ a < off + register_size td regno then rc regno (a - off) else buf a

/-- `collect_register_by_name`. -/
def collect_register_by_name (td : target_desc) (rc : Regcache) (name : String)
    (buf : Buf) (off : Nat) : Buf :=
  collect_register td rc (find_regno td name) buf off

/-- `supply_register (regcache, regno, buf + off)`: copy the register's
`register_size` bytes from the buffer at offset `off` into the cache. -/
def supply_register (td : target_desc) (rc : Regcache) (regno : Nat)
    (buf : Buf) (off : Nat) : Regcache :=
  fun r j => if r = regno ∧ j < register_size td regno then buf (off + j) else rc r j

/-- `supply_register_by_name`. -/
def supply_register_by_name (td : target_desc) (rc : Regcache) (name : String)
    (buf : Buf) (off : Nat) : Regcache :=
  supply_register td rc (find_regno td name) buf off

/-- `supply_register_zeroed (regcache, regno)`: set the register's bytes
to zero in the cache. -/
def supply_register_zeroed (td : target_desc) (rc : Regcache) (regno : Nat) : Regcache :=
  fun r j => if r = regno ∧ j < register_size td regno then 0 else rc r j

/-- The C loop `for (i = b; i < b + m; i++) collect_register (regcache,
base + i, buf + i * R);` as a structural recursion (iterations applied in
ascending order of `i`). -/
def fillRegs (td : target_desc) (rc : Regcache) (base R b : Nat) : Nat → Buf → Buf
  | 0, buf => buf
  | m + 1, buf =>
      collect_register td rc (base + (b + m)) (fillRegs td rc base R b m buf) ((b + m) * R)

/-- The C loop `for (i = b; i < b + m; i++) supply_register (regcache,
base + i, buf + i * R);` as a structural recursion (iterations applied in
ascending order of `i`). -/
def supplyRegs (td : target_desc) (buf : Buf) (base R b : Nat) : Nat → Regcache → Regcache
  | 0, rc => rc
  | m + 1, rc =>
      supply_register td (supplyRegs td buf base R b m rc) (base + (b + m)) buf ((b + m) * R)

/-! ## The GPR and FPR codecs -/

/-- `riscv_fill_gregset`: collect GPRs from the cache into the buffer.
With the capability feature: `pcc` at offset 0, `ddc` at offset
`(pcc − cnull) * regsize`, capability registers `cnull+1 … pcc−1` at
stride `regsize`; then (shared tail, still with the capability
`regsize`) `pc` at offset 0 and integer registers `zero+1 … pc−1` at
stride `regsize`.  Without the feature, only the tail runs, with
`regsize` the size of `pc`. -/
def riscv_fill_gregset (td : target_desc) (rc : Regcache) (buf : Buf) : Buf :=
  if tdesc_contains_feature td feature_cheri then
    let regno_null := find_regno td regname_cnull
    let regno_pc := find_regno td regname_pcc
    let regsize := register_size td regno_pc
    let buf1 := collect_register td rc regno_pc buf 0
    let buf2 := collect_register_by_name td rc regname_ddc buf1 ((regno_pc - regno_null) * regsize)
    let buf3 := fillRegs td rc regno_null regsize 1 (regno_pc - regno_null - 1) buf2
    let regno_null2 := find_regno td regname_zero
    let regno_pc2 := find_regno td regname_pc
    let buf4 := collect_register td rc regno_pc2 buf3 0
    fillRegs td rc regno_null2 regsize 1 (regno_pc2 - regno_null2 - 1) buf4
  else
    let regsize := register_size td (find_regno td regname_pc)
    let regno_null := find_regno td regname_zero
    let regno_pc := find_regno td regname_pc
    let buf1 := collect_register td rc regno_pc buf 0
    fillRegs td rc regno_null regsize 1 (regno_pc - regno_null - 1) buf1

/-- `riscv_store_gregset`: supply GPRs from the buffer into the cache.
Mirrors `riscv_fill_gregset` and additionally zeroes `cnull` (capability
branch) and `zero` (shared tail). -/
def riscv_store_gregset (td : target_desc) (rc : Regcache) (buf : Buf) : Regcache :=
  if tdesc_contains_feature td feature_cheri then
    let regno_null := find_regno td regname_cnull
    let regno_pc := find_regno td regname_pcc
    let regsize := register_size td regno_pc
    let rc1 := supply_register td rc regno_pc buf 0
    let rc2 := supply_register_zeroed td rc1 regno_null
    let rc3 := supply_register_by_name td rc2 regname_ddc buf ((regno_pc - regno_null) * regsize)
    let rc4 := supplyRegs td buf regno_null regsize 1 (regno_pc - regno_null - 1) rc3
    let regno_null2 := find_regno td regname_zero
    let regno_pc2 := find_regno td regname_pc
    let rc5 := supply_register td rc4 regno_pc2 buf 0
    let rc6 := supply_register_zeroed td rc5 regno_null2
    supplyRegs td buf regno_null2 regsize 1 (regno_pc2 - regno_null2 - 1) rc6
  else
    let regsize := register_size td (find_regno td regname_pc)
    let regno_null := find_regno td regname_zero
    let regno_pc := find_regno td regname_pc
    let rc1 := supply_register td rc regno_pc buf 0
    let rc2 := supply_register_zeroed td rc1 regno_null
    supplyRegs td buf regno_null regsize 1 (regno_pc - regno_null - 1) rc2

/-- `ELF_NFPREG` (33: 32 floating data registers plus `fcsr`). -/
def ELF_NFPREG : Nat := 33

/-- `riscv_fill_fpregset`: 32 floating registers `ft0+i` at stride `flen`
(the size of `ft0`), then `fcsr` immediately after the last one. -/
def riscv_fill_fpregset (td : target_desc) (rc : Regcache) (buf : Buf) : Buf :=
  let regno := find_regno td regname_ft0
  let flen := register_size td regno
  let buf1 := fillRegs td rc regno flen 0 (ELF_NFPREG - 1) buf
  collect_register_by_name td rc regname_fcsr buf1 ((ELF_NFPREG - 1) * flen)

/-- `riscv_store_fpregset`: mirror of `riscv_fill_fpregset`. -/
def riscv_store_fpregset (td : target_desc) (rc : Regcache) (buf : Buf) : Regcache :=
  let regno := find_regno td regname_ft0
  let flen := register_size td regno
  let rc1 := supplyRegs td buf regno flen 0 (ELF_NFPREG - 1) rc
  supply_register_by_name td rc1 regname_fcsr buf ((ELF_NFPREG - 1) * flen)

/-- `riscv_target::low_fetch_register`: only the `zero` and `cnull`
registers are handled (supplied as zero, returning `true`); every other
register number returns `false` with the cache untouched. -/
def low_fetch_register (td : target_desc) (rc : Regcache) (regno : Nat) : Bool × Regcache :=
  if regno ≠ find_regno td regname_zero ∧ regno ≠ find_regno td regname_cnull then
    (false, rc)
  else
    (true, supply_register_zeroed td rc regno)

/-- `riscv_target::low_get_pc`: look up the size of `pc` in the active
description and dispatch to `linux_get_pc_64bit` (modelled by the
parameter `get64`) when it is 8, else to `linux_get_pc_32bit` (`get32`). -/
def low_get_pc (td : target_desc) (get64 get32 : Regcache → Nat) (rc : Regcache) : Nat :=
  if register_size td (find_regno td regname_pc) = 8 then get64 rc else get32 rc

/-- `riscv_target::low_set_pc`: look up the size of `pc` in the active
description and dispatch to `linux_set_pc_64bit` (modelled by the
parameter `set64`) when it is 8, else to `linux_set_pc_32bit` (`set32`). -/
def low_set_pc (td : target_desc) (set64 set32 : Regcache → Nat → Regcache)
    (rc : Regcache) (newpc : Nat) : Regcache :=
  if register_size td (find_regno td regname_pc) = 8 then set64 rc newpc else set32 rc newpc

/-! ## Pointwise lemmas about the register primitives -/

theorem collect_register_at_in (td : target_desc) (rc : Regcache) (regno : Nat)
    (buf : Buf) (off j : Nat) (hj : j < register_size td regno) :
    collect_register td rc regno buf off (off + j) = rc regno j := by
  unfold collect_register
  rw [if_pos (by omega)]
  congr 1
  omega

theorem collect_register_at_out (td : target_desc) (rc : Regcache) (regno : Nat)
    (buf : Buf) (off a : Nat)
    (h : a < off ∨ off + register_size td regno ≤ a) :
    collect_register td rc regno buf off a = buf a := by
  unfold collect_register
  rw [if_neg (by omega)]

theorem supply_register_at_self (td : target_desc) (rc : Regcache) (regno : Nat)
    (buf : Buf) (off j : Nat) (hj : j < register_size td regno) :
    supply_register td rc regno buf off regno j = buf (off + j) := by
  unfold supply_register
  rw [if_pos ⟨rfl, hj⟩]

theorem supply_register_at_other (td : target_desc) (rc : Regcache) (regno : Nat)
    (buf : Buf) (off r j : Nat)
    (h : r ≠ regno ∨ register_size td regno ≤ j) :
    supply_register td rc regno buf off r j = rc r j := by
  unfold supply_register
  rw [if_neg (by omega)]

theorem supply_register_zeroed_at_self (td : target_desc) (rc : Regcache) (regno : Nat)
    (j : Nat) (hj : j < register_size td regno) :
    supply_register_zeroed td rc regno regno j = 0 := by
  unfold supply_register_zeroed
  rw [if_pos ⟨rfl, hj⟩]

theorem supply_register_zeroed_at_other (td : target_desc) (rc : Regcache) (regno : Nat)
    (r j : Nat) (h : r ≠ regno ∨ register_size td regno ≤ j) :
    supply_register_zeroed td rc regno r j = rc r j := by
  unfold supply_register_zeroed
  rw [if_neg (by omega)]

theorem supply_register_zeroed_preserves_zero (td : target_desc) (rc : Regcache)
    (regno r j : Nat) (h : rc r j = 0) :
    supply_register_zeroed td rc regno r j = 0 := by
  unfold supply_register_zeroed
  split
  · rfl
  · exact h

/-! ## Lemmas about the register-bank loops -/

theorem fillRegs_at_out (td : target_desc) (rc : Regcache) (base R b : Nat) :
    ∀ (m : Nat) (buf : Buf) (a : Nat),
      (∀ i, b ≤ i → i < b + m → a < i * R ∨ i * R + register_size td (base + i) ≤ a) →
      fillRegs td rc base R b m buf a = buf a := by
  intro m
  induction m with
  | zero => intro buf a _; rfl
  | succ m ih =>
    intro buf a h
    show collect_register td rc (base + (b + m)) (fillRegs td rc base R b m buf) ((b + m) * R) a
        = buf a
    rw [collect_register_at_out _ _ _ _ _ _ (h (b + m) (by omega) (by omega))]
    exact ih buf a (fun i hi1 hi2 => h i hi1 (by omega))

theorem fillRegs_at_in (td : target_desc) (rc : Regcache) (base R b : Nat) :
    ∀ (m : Nat) (buf : Buf) (i j : Nat),
      (∀ k, b ≤ k → k < b + m → register_size td (base + k) ≤ R) →
      b ≤ i → i < b + m → j < register_size td (base + i) →
      fillRegs td rc base R b m buf (i * R + j) = rc (base + i) j := by
  intro m
  induction m with
  | zero => intro buf i j _ hi1 hi2 _; omega
  | succ m ih =>
    intro buf i j hs hi1 hi2 hj
    show collect_register td rc (base + (b + m)) (fillRegs td rc base R b m buf) ((b + m) * R)
          (i * R + j)
        = rc (base + i) j
    by_cases hcase : i = b + m
    · subst hcase
      exact collect_register_at_in td rc (base + (b + m)) _ ((b + m) * R) j hj
    · have hiR : i * R + j < (b + m) * R := by
        have h1 : register_size td (base + i) ≤ R := hs i hi1 (by omega)
        have h2 : (i + 1) * R ≤ (b + m) * R := Nat.mul_le_mul_right R (by omega)
        have h3 : (i + 1) * R = i * R + R := Nat.succ_mul i R
        omega
      rw [collect_register_at_out _ _ _ _ _ _ (Or.inl hiR)]
      exact ih buf i j (fun k hk1 hk2 => hs k hk1 (by omega)) hi1 (by omega) hj

theorem supplyRegs_at_ne (td : target_desc) (buf : Buf) (base R b : Nat) :
    ∀ (m : Nat) (rc : Regcache) (r j : Nat),
      (∀ i, b ≤ i → i < b + m → r ≠ base + i) →
      supplyRegs td buf base R b m rc r j = rc r j := by
  intro m
  induction m with
  | zero => intro rc r j _; rfl
  | succ m ih =>
    intro rc r j h
    show supply_register td (supplyRegs td buf base R b m rc) (base + (b + m)) buf ((b + m) * R) r j
        = rc r j
    rw [supply_register_at_other _ _ _ _ _ _ _ (Or.inl (h (b + m) (by omega) (by omega)))]
    exact ih rc r j (fun i hi1 hi2 => h i hi1 (by omega))

theorem supplyRegs_at_in (td : target_desc) (buf : Buf) (base R b : Nat) :
    ∀ (m : Nat) (rc : Regcache) (i j : Nat),
      b ≤ i → i < b + m → j < register_size td (base + i) →
      supplyRegs td buf base R b m rc (base + i) j = buf (i * R + j) := by
  intro m
  induction m with
  | zero => intro rc i j hi1 hi2 _; omega
  | succ m ih =>
    intro rc i j hi1 hi2 hj
    show supply_register td (supplyRegs td buf base R b m rc) (base + (b + m)) buf ((b + m) * R)
          (base + i) j
        = buf (i * R + j)
    by_cases hcase : i = b + m
    · subst hcase
      exact supply_register_at_self td _ (base + (b + m)) buf ((b + m) * R) j hj
    · rw [supply_register_at_other _ _ _ _ _ _ _ (Or.inl (by omega))]
      exact ih rc i j hi1 (by omega) hj

theorem supplyRegs_at_ge (td : target_desc) (buf : Buf) (base R b : Nat) :
    ∀ (m : Nat) (rc : Regcache) (r j : Nat),
      register_size td r ≤ j →
      supplyRegs td buf base R b m rc r j = rc r j := by
  intro m
  induction m with
  | zero => intro rc r j _; rfl
  | succ m ih =>
    intro rc r j hj
    show supply_register td (supplyRegs td buf base R b m rc) (base + (b + m)) buf ((b + m) * R) r j
        = rc r j
    by_cases hcase : r = base + (b + m)
    · subst hcase
      rw [supply_register_at_other _ _ _ _ _ _ _ (Or.inr hj)]
      exact ih rc _ j hj
    · rw [supply_register_at_other _ _ _ _ _ _ _ (Or.inl hcase)]
      exact ih rc r j hj

theorem supplyRegs_preserves_zero (td : target_desc) (buf : Buf) (base R b : Nat) :
    ∀ (m : Nat) (rc : Regcache) (r j : Nat),
      (∀ i, b ≤ i → i < b + m → r ≠ base + i) →
      rc r j = 0 →
      supplyRegs td buf base R b m rc r j = 0 := by
  intro m rc r j hne hz
  rw [supplyRegs_at_ne td buf base R b m rc r j hne]
  exact hz

/-! ## Branch equations for the GPR codec -/

theorem riscv_fill_gregset_noncheri (td : target_desc) (rc : Regcache) (buf : Buf)
    (h : tdesc_contains_feature td feature_cheri = false) :
    riscv_fill_gregset td rc buf =
      fillRegs td rc (find_regno td regname_zero)
        (register_size td (find_regno td regname_pc)) 1
        (find_regno td regname_pc - find_regno td regname_zero - 1)
        (collect_register td rc (find_regno td regname_pc) buf 0) := by
  unfold riscv_fill_gregset
  rw [h]
  rfl

theorem riscv_fill_gregset_cheri (td : target_desc) (rc : Regcache) (buf : Buf)
    (h : tdesc_contains_feature td feature_cheri = true) :
    riscv_fill_gregset td rc buf =
      fillRegs td rc (find_regno td regname_zero)
        (register_size td (find_regno td regname_pcc)) 1
        (find_regno td regname_pc - find_regno td regname_zero - 1)
        (collect_register td rc (find_regno td regname_pc)
          (fillRegs td rc (find_regno td regname_cnull)
            (register_size td (find_regno td regname_pcc)) 1
            (find_regno td regname_pcc - find_regno td regname_cnull - 1)
            (collect_register_by_name td rc regname_ddc
              (collect_register td rc (find_regno td regname_pcc) buf 0)
              ((find_regno td regname_pcc - find_regno td regname_cnull) *
                register_size td (find_regno td regname_pcc))))
          0) := by
  unfold riscv_fill_gregset
  rw [h]
  rfl

theorem riscv_store_gregset_noncheri (td : target_desc) (rc : Regcache) (buf : Buf)
    (h : tdesc_contains_feature td feature_cheri = false) :
    riscv_store_gregset td rc buf =
      supplyRegs td buf (find_regno td regname_zero)
        (register_size td (find_regno td regname_pc)) 1
        (find_regno td regname_pc - find_regno td regname_zero - 1)
        (supply_register_zeroed td
          (supply_register td rc (find_regno td regname_pc) buf 0)
          (find_regno td regname_zero)) := by
  unfold riscv_store_gregset
  rw [h]
  rfl

theorem riscv_store_gregset_cheri (td : target_desc) (rc : Regcache) (buf : Buf)
    (h : tdesc_contains_feature td feature_cheri = true) :
    riscv_store_gregset td rc buf =
      supplyRegs td buf (find_regno td regname_zero)
        (register_size td (find_regno td regname_pcc)) 1
        (find_regno td regname_pc - find_regno td regname_zero - 1)
        (supply_register_zeroed td
          (supply_register td
            (supplyRegs td buf (find_regno td regname_cnull)
              (register_size td (find_regno td regname_pcc)) 1
              (find_regno td regname_pcc - find_regno td regname_cnull - 1)
              (supply_register_by_name td
                (supply_register_zeroed td
                  (supply_register td rc (find_regno td regname_pcc) buf 0)
                  (find_regno td regname_cnull))
                regname_ddc buf
                ((find_regno td regname_pcc - find_regno td regname_cnull) *
                  register_size td (find_regno td regname_pcc))))
            (find_regno td regname_pc) buf 0)
          (find_regno td regname_zero)) := by
  unfold riscv_store_gregset
  rw [h]
  rfl

/-! ## Concrete fixtures used by counterexamples and witnesses -/

/-- A concrete target description without the capability feature:
`zero` is register 0, `pc` register 3, `ft0` register 60, `fcsr`
register 93; every register is 1 byte wide. -/
def td_nocap : target_desc where
  features := []
  regno := fun s =>
    if s = regname_zero then 0
    else if s = regname_pc then 3
    else if s = regname_ft0 then 60
    else if s = regname_fcsr then 93
    else 50
  regsize := fun _ => 1

/-- A concrete target description with the capability feature:
`zero` is register 0, `pc` register 2, `cnull` register 10, `pcc`
register 12, `ddc` register 13; capability registers (number ≥ 10) are
2 bytes wide, integer registers 1 byte. -/
def td_cap : target_desc where
  features := [feature_cheri]
  regno := fun s =>
    if s = regname_zero then 0
    else if s = regname_pc then 2
    else if s = regname_cnull then 10
    else if s = regname_pcc then 12
    else if s = regname_ddc then 13
    else 40
  regsize := fun r => if 10 ≤ r then 2 else 1

/-- A concrete populated register cache: register `r`, byte `j` holds
`10 * r + j + 1` (so no register byte is zero and all differ). -/
def rc_lin : Regcache := fun r j => 10 * r + j + 1

/-- An all-zero transfer buffer. -/
def buf_zero : Buf := fun _ => 0

/-! ## Theorems: register codec round trip (claim C4) -/

/-- C4 counterexample.  The claim asserts the round trip for *every*
supported feature set, but with the capability feature present the
second (plain-register) pass of `riscv_fill_gregset` overwrites the low
bytes of the capability slots, so `pcc` — a transferred register that is
not the null register — does not keep its value: in the concrete cache
`rc_lin` its byte 0 is 121 before and 21 (the value of `pc`, byte 0)
after `supply (collect …)`. -/
theorem C4_roundtrip_counterexample :
    tdesc_contains_feature td_cap feature_cheri = true ∧
    find_regno td_cap regname_pcc ≠ find_regno td_cap regname_cnull ∧
    riscv_store_gregset td_cap rc_lin (riscv_fill_gregset td_cap rc_lin buf_zero)
        (find_regno td_cap regname_pcc) 0
      ≠ rc_lin (find_regno td_cap regname_pcc) 0 := by
  decide

/-- C4 (amended).  Without the capability feature, `supply (collect cache)`
on the general-purpose bank reproduces every transferred register —
`pc` and `zero+1 … pc−1` — and leaves the `zero` register reading
exactly zero; on the floating-point bank it reproduces all 32 floating
registers and `fcsr`.  (With the capability feature the plain-register
pass aliases the capability slots, see `C4_roundtrip_counterexample`.)
Hypotheses: the register numbering is as laid out by the codec
(`zero < pc`), and no transferred register is wider than the layout
stride (the size of `pc`, resp. of `ft0`). -/
theorem C4_supply_collect_roundtrip (td : target_desc) (rc : Regcache) (buf : Buf) :
    (tdesc_contains_feature td feature_cheri = false →
     find_regno td regname_zero < find_regno td regname_pc →
     (∀ i, 1 ≤ i → i < find_regno td regname_pc - find_regno td regname_zero →
        register_size td (find_regno td regname_zero + i) ≤
          register_size td (find_regno td regname_pc)) →
     (∀ j, riscv_store_gregset td rc (riscv_fill_gregset td rc buf)
             (find_regno td regname_pc) j
           = rc (find_regno td regname_pc) j) ∧
     (∀ i, 1 ≤ i → i < find_regno td regname_pc - find_regno td regname_zero →
        ∀ j, riscv_store_gregset td rc (riscv_fill_gregset td rc buf)
               (find_regno td regname_zero + i) j
             = rc (find_regno td regname_zero + i) j) ∧
     (∀ j, j < register_size td (find_regno td regname_zero) →
        riscv_store_gregset td rc (riscv_fill_gregset td rc buf)
          (find_regno td regname_zero) j
        = 0)) ∧
    ((∀ i, i < ELF_NFPREG - 1 →
        register_size td (find_regno td regname_ft0 + i) ≤
          register_size td (find_regno td regname_ft0)) →
     (∀ i, i < ELF_NFPREG - 1 →
        find_regno td regname_fcsr ≠ find_regno td regname_ft0 + i) →
     (∀ i, i < ELF_NFPREG - 1 →
        ∀ j, riscv_store_fpregset td rc (riscv_fill_fpregset td rc buf)
               (find_regno td regname_ft0 + i) j
             = rc (find_regno td regname_ft0 + i) j) ∧
     (∀ j, riscv_store_fpregset td rc (riscv_fill_fpregset td rc buf)
             (find_regno td regname_fcsr) j
           = rc (find_regno td regname_fcsr) j)) := by
  constructor
  · intro h1 h2 h3
    rw [riscv_store_gregset_noncheri td rc _ h1, riscv_fill_gregset_noncheri td rc buf h1]
    refine ⟨?_, ?_, ?_⟩
    · intro j
      rw [supplyRegs_at_ne td _ _ _ _ _ _ _ j (fun i hi1 hi2 => by omega)]
      rw [supply_register_zeroed_at_other td _ _ _ j (Or.inl (by omega))]
      by_cases hj : j < register_size td (find_regno td regname_pc)
      · rw [supply_register_at_self td rc _ _ 0 j hj]
        rw [fillRegs_at_out td rc _ _ _ _ _ _ (fun i hi1 hi2 => by
          have hR : register_size td (find_regno td regname_pc) ≤
              i * register_size td (find_regno td regname_pc) :=
            Nat.le_mul_of_pos_left _ (by omega)
          omega)]
        exact collect_register_at_in td rc _ buf 0 j hj
      · rw [supply_register_at_other td rc _ _ 0 _ j (Or.inr (by omega))]
    · intro i hi1 hi2 j
      by_cases hj : j < register_size td (find_regno td regname_zero + i)
      · rw [supplyRegs_at_in td _ _ _ 1 _ _ i j hi1 (by omega) hj]
        exact fillRegs_at_in td rc _ _ 1 _ _ i j
          (fun k hk1 hk2 => h3 k hk1 (by omega)) hi1 (by omega) hj
      · rw [supplyRegs_at_ge td _ _ _ 1 _ _ _ j (by omega)]
        rw [supply_register_zeroed_at_other td _ _ _ j (Or.inl (by omega))]
        rw [supply_register_at_other td rc _ _ 0 _ j (Or.inl (by omega))]
    · intro j hj
      apply supplyRegs_preserves_zero td _ _ _ 1 _ _ _ j (fun i hi1 hi2 => by omega)
      exact supply_register_zeroed_at_self td _ _ j hj
  · intro hf1 hf2
    simp only [riscv_store_fpregset, riscv_fill_fpregset, collect_register_by_name,
      supply_register_by_name]
    constructor
    · intro i hi j
      rw [supply_register_at_other td _ _ _ _ _ j (Or.inl (Ne.symm (hf2 i hi)))]
      by_cases hj : j < register_size td (find_regno td regname_ft0 + i)
      · rw [supplyRegs_at_in td _ _ _ 0 _ _ i j (Nat.zero_le i) (by omega) hj]
        rw [collect_register_at_out td rc _ _ _ _ (Or.inl (by
          have hs := hf1 i hi
          have hmul : (i + 1) * register_size td (find_regno td regname_ft0) ≤
              (ELF_NFPREG - 1) * register_size td (find_regno td regname_ft0) :=
            Nat.mul_le_mul_right _ (by omega)
          have hsucc : (i + 1) * register_size td (find_regno td regname_ft0) =
              i * register_size td (find_regno td regname_ft0) +
                register_size td (find_regno td regname_ft0) :=
            Nat.succ_mul i _
          omega))]
        exact fillRegs_at_in td rc _ _ 0 _ buf i j
          (fun k _ hk2 => hf1 k (by omega)) (Nat.zero_le i) (by omega) hj
      · rw [supplyRegs_at_ge td _ _ _ 0 _ _ _ j (by omega)]
    · intro j
      by_cases hj : j < register_size td (find_regno td regname_fcsr)
      · rw [supply_register_at_self td _ _ _ _ j hj]
        exact collect_register_at_in td rc _ _ _ j hj
      · rw [supply_register_at_other td _ _ _ _ _ j (Or.inr (by omega))]
        rw [supplyRegs_at_ne td _ _ _ 0 _ _ _ j (fun i hi1 hi2 => hf2 i (by omega))]

/-- C4 witness: the amended round trip evaluated on the concrete
non-capability description `td_nocap` and cache `rc_lin`. -/
theorem C4_supply_collect_roundtrip_witness :
    riscv_store_gregset td_nocap rc_lin (riscv_fill_gregset td_nocap rc_lin buf_zero)
        (find_regno td_nocap regname_pc) 0
      = rc_lin (find_regno td_nocap regname_pc) 0 ∧
    riscv_store_gregset td_nocap rc_lin (riscv_fill_gregset td_nocap rc_lin buf_zero)
        (find_regno td_nocap regname_zero + 1) 0
      = rc_lin (find_regno td_nocap regname_zero + 1) 0 ∧
    riscv_store_gregset td_nocap rc_lin (riscv_fill_gregset td_nocap rc_lin buf_zero)
        (find_regno td_nocap regname_zero) 0
      = 0 ∧
    riscv_store_fpregset td_nocap rc_lin (riscv_fill_fpregset td_nocap rc_lin buf_zero)
        (find_regno td_nocap regname_ft0 + 1) 0
      = rc_lin (find_regno td_nocap regname_ft0 + 1) 0 ∧
    riscv_store_fpregset td_nocap rc_lin (riscv_fill_fpregset td_nocap rc_lin buf_zero)
        (find_regno td_nocap regname_fcsr) 0
      = rc_lin (find_regno td_nocap regname_fcsr) 0 := by
  have h := C4_supply_collect_roundtrip td_nocap rc_lin buf_zero
  have hg := h.1 rfl (by decide) (fun i _ _ => Nat.le_refl 1)
  have hf := h.2 (fun i _ => Nat.le_refl 1)
    (fun i hi => by
      have e33 : ELF_NFPREG = 33 := rfl
      have e1 : find_regno td_nocap regname_fcsr = 93 := rfl
      have e2 : find_regno td_nocap regname_ft0 = 60 := rfl
      omega)
  exact ⟨hg.1 0, hg.2.1 1 (by decide) (by decide) 0, hg.2.2 0 (by decide),
    hf.1 1 (by decide) 0, hf.2 0⟩

/-! ## Theorems: the null register is forced to zero (claim C5) -/

/-- C5.  After every `riscv_store_gregset` call the `zero` register reads
as exactly zero whatever the buffer holds (in both the capability and the
non-capability branch); with the capability feature present and `cnull`
distinct from the registers the plain pass touches, `cnull` also reads
as exactly zero.  The store never copies buffer bytes into the
zero/null register (it is `supply_register_zeroed`, independent of
`buf`, which the universal quantification over `buf` reflects).
`low_fetch_register` on the `zero` and `cnull` register numbers returns
`true` and supplies zero bytes. -/
theorem C5_null_register_zero (td : target_desc) (rc : Regcache) (buf : Buf) :
    (∀ j, j < register_size td (find_regno td regname_zero) →
       riscv_store_gregset td rc buf (find_regno td regname_zero) j = 0) ∧
    (tdesc_contains_feature td feature_cheri = true →
     find_regno td regname_ddc ≠ find_regno td regname_cnull →
     find_regno td regname_pc ≠ find_regno td regname_cnull →
     (∀ i, 1 ≤ i → i < find_regno td regname_pc - find_regno td regname_zero →
        find_regno td regname_zero + i ≠ find_regno td regname_cnull) →
     ∀ j, j < register_size td (find_regno td regname_cnull) →
       riscv_store_gregset td rc buf (find_regno td regname_cnull) j = 0) ∧
    ((low_fetch_register td rc (find_regno td regname_zero)).1 = true) ∧
    (∀ j, j < register_size td (find_regno td regname_zero) →
       (low_fetch_register td rc (find_regno td regname_zero)).2
         (find_regno td regname_zero) j = 0) ∧
    ((low_fetch_register td rc (find_regno td regname_cnull)).1 = true) ∧
    (∀ j, j < register_size td (find_regno td regname_cnull) →
       (low_fetch_register td rc (find_regno td regname_cnull)).2
         (find_regno td regname_cnull) j = 0) := by
  have hfz : low_fetch_register td rc (find_regno td regname_zero) =
      (true, supply_register_zeroed td rc (find_regno td regname_zero)) := by
    unfold low_fetch_register
    rw [if_neg (fun h => h.1 rfl)]
  have hfc : low_fetch_register td rc (find_regno td regname_cnull) =
      (true, supply_register_zeroed td rc (find_regno td regname_cnull)) := by
    unfold low_fetch_register
    rw [if_neg (fun h => h.2 rfl)]
  refine ⟨?_, ?_, ?_, ?_, ?_, ?_⟩
  · intro j hj
    cases hch : tdesc_contains_feature td feature_cheri with
    | false =>
      rw [riscv_store_gregset_noncheri td rc buf hch]
      apply supplyRegs_preserves_zero td buf _ _ 1 _ _ _ j (fun i hi1 hi2 => by omega)
      exact supply_register_zeroed_at_self td _ _ j hj
    | true =>
      rw [riscv_store_gregset_cheri td rc buf hch]
      apply supplyRegs_preserves_zero td buf _ _ 1 _ _ _ j (fun i hi1 hi2 => by omega)
      exact supply_register_zeroed_at_self td _ _ j hj
  · intro hch hd hp hloop j hj
    rw [riscv_store_gregset_cheri td rc buf hch]
    simp only [supply_register_by_name]
    rw [supplyRegs_at_ne td buf _ _ 1 _ _ _ j
      (fun i hi1 hi2 => Ne.symm (hloop i hi1 (by omega)))]
    apply supply_register_zeroed_preserves_zero
    rw [supply_register_at_other td _ _ buf 0 _ j (Or.inl (Ne.symm hp))]
    rw [supplyRegs_at_ne td buf _ _ 1 _ _ _ j (fun i hi1 hi2 => by omega)]
    rw [supply_register_at_other td _ _ buf _ _ j (Or.inl (Ne.symm hd))]
    exact supply_register_zeroed_at_self td _ _ j hj
  · rw [hfz]
  · intro j hj
    rw [hfz]
    exact supply_register_zeroed_at_self td rc _ j hj
  · rw [hfc]
  · intro j hj
    rw [hfc]
    exact supply_register_zeroed_at_self td rc _ j hj

/-- C5 witness: the invariant evaluated on the concrete capability
description `td_cap`, cache `rc_lin` and a nonzero buffer. -/
theorem C5_null_register_zero_witness :
    riscv_store_gregset td_cap rc_lin (fun a => a + 7) (find_regno td_cap regname_zero) 0 = 0 ∧
    riscv_store_gregset td_cap rc_lin (fun a => a + 7) (find_regno td_cap regname_cnull) 0 = 0 ∧
    (low_fetch_register td_cap rc_lin (find_regno td_cap regname_zero)).1 = true ∧
    (low_fetch_register td_cap rc_lin (find_regno td_cap regname_zero)).2
      (find_regno td_cap regname_zero) 0 = 0 ∧
    (low_fetch_register td_cap rc_lin (find_regno td_cap regname_cnull)).2
      (find_regno td_cap regname_cnull) 0 = 0 := by
  have h := C5_null_register_zero td_cap rc_lin (fun a => a + 7)
  have hloop : ∀ i, 1 ≤ i →
      i < find_regno td_cap regname_pc - find_regno td_cap regname_zero →
      find_regno td_cap regname_zero + i ≠ find_regno td_cap regname_cnull := by
    intro i hi1 hi2
    have e1 : find_regno td_cap regname_zero = 0 := rfl
    have e2 : find_regno td_cap regname_pc = 2 := rfl
    have e3 : find_regno td_cap regname_cnull = 10 := rfl
    omega
  exact ⟨h.1 0 (by decide),
    h.2.1 rfl (by decide) (by decide) hloop 0 (by decide),
    h.2.2.1,
    h.2.2.2.1 0 (by decide),
    h.2.2.2.2.2 0 (by decide)⟩

/-! ## Theorems: non-capability GPR transfer layout (claim C6) -/

/-- An arbitrary nonzero transfer buffer used by witnesses. -/
def buf_lin : Buf := fun a => a + 7

/-- C6.  Without the capability feature: `riscv_fill_gregset` places `pc`
at buffer offset 0 and register `zero + i` (for `1 ≤ i < pc − zero`) at
offset `i × registerWidth` (`registerWidth` = the size of `pc`);
`riscv_store_gregset` supplies `pc` from offset 0, `zero + i` from offset
`i × registerWidth`, forces `zero` itself to 0, and modifies no register
outside `{zero, zero+1, …, pc}` — a set of exactly `pc − zero + 1`
registers. -/
theorem C6_gpr_transfer_layout (td : target_desc) (rc : Regcache) (buf : Buf)
    (h1 : tdesc_contains_feature td feature_cheri = false)
    (h2 : find_regno td regname_zero < find_regno td regname_pc)
    (h3 : ∀ i, 1 ≤ i → i < find_regno td regname_pc - find_regno td regname_zero →
       register_size td (find_regno td regname_zero + i) ≤
         register_size td (find_regno td regname_pc)) :
    (∀ j, j < register_size td (find_regno td regname_pc) →
       riscv_fill_gregset td rc buf j = rc (find_regno td regname_pc) j) ∧
    (∀ i, 1 ≤ i → i < find_regno td regname_pc - find_regno td regname_zero →
       ∀ j, j < register_size td (find_regno td regname_zero + i) →
         riscv_fill_gregset td rc buf
             (i * register_size td (find_regno td regname_pc) + j)
           = rc (find_regno td regname_zero + i) j) ∧
    (∀ j, j < register_size td (find_regno td regname_pc) →
       riscv_store_gregset td rc buf (find_regno td regname_pc) j = buf j) ∧
    (∀ i, 1 ≤ i → i < find_regno td regname_pc - find_regno td regname_zero →
       ∀ j, j < register_size td (find_regno td regname_zero + i) →
         riscv_store_gregset td rc buf (find_regno td regname_zero + i) j
           = buf (i * register_size td (find_regno td regname_pc) + j)) ∧
    (∀ j, j < register_size td (find_regno td regname_zero) →
       riscv_store_gregset td rc buf (find_regno td regname_zero) j = 0) ∧
    (∀ r, (∀ i, i ≤ find_regno td regname_pc - find_regno td regname_zero →
            r ≠ find_regno td regname_zero + i) →
       ∀ j, riscv_store_gregset td rc buf r j = rc r j) ∧
    (Finset.image (fun i => find_regno td regname_zero + i)
        (Finset.range (find_regno td regname_pc - find_regno td regname_zero + 1))).card
      = find_regno td regname_pc - find_regno td regname_zero + 1 := by
  refine ⟨?_, ?_, ?_, ?_, ?_, ?_, ?_⟩
  · intro j hj
    rw [riscv_fill_gregset_noncheri td rc buf h1]
    rw [fillRegs_at_out td rc _ _ _ _ _ _ (fun i hi1 hi2 => by
      have hR : register_size td (find_regno td regname_pc) ≤
          i * register_size td (find_regno td regname_pc) :=
        Nat.le_mul_of_pos_left _ (by omega)
      omega)]
    have h := collect_register_at_in td rc (find_regno td regname_pc) buf 0 j hj
    rw [Nat.zero_add] at h
    exact h
  · intro i hi1 hi2 j hj
    rw [riscv_fill_gregset_noncheri td rc buf h1]
    exact fillRegs_at_in td rc _ _ 1 _ _ i j
      (fun k hk1 hk2 => h3 k hk1 (by omega)) hi1 (by omega) hj
  · intro j hj
    rw [riscv_store_gregset_noncheri td rc buf h1]
    rw [supplyRegs_at_ne td buf _ _ 1 _ _ _ j (fun i hi1 hi2 => by omega)]
    rw [supply_register_zeroed_at_other td _ _ _ j (Or.inl (by omega))]
    have h := supply_register_at_self td rc (find_regno td regname_pc) buf 0 j hj
    rw [Nat.zero_add] at h
    exact h
  · intro i hi1 hi2 j hj
    rw [riscv_store_gregset_noncheri td rc buf h1]
    rw [supplyRegs_at_in td buf _ _ 1 _ _ i j hi1 (by omega) hj]
  · intro j hj
    rw [riscv_store_gregset_noncheri td rc buf h1]
    apply supplyRegs_preserves_zero td buf _ _ 1 _ _ _ j (fun i hi1 hi2 => by omega)
    exact supply_register_zeroed_at_self td _ _ j hj
  · intro r hr j
    rw [riscv_store_gregset_noncheri td rc buf h1]
    rw [supplyRegs_at_ne td buf _ _ 1 _ _ _ j (fun i hi1 hi2 => hr i (by omega))]
    rw [supply_register_zeroed_at_other td _ _ _ j (Or.inl (by
      have h := hr 0 (Nat.zero_le _)
      omega))]
    refine supply_register_at_other td rc _ buf 0 _ j (Or.inl ?_)
    have h := hr (find_regno td regname_pc - find_regno td regname_zero) (Nat.le_refl _)
    omega
  · rw [Finset.card_image_of_injective _ (fun x y hxy => by
      have h : find_regno td regname_zero + x = find_regno td regname_zero + y := hxy
      omega)]
    rw [Finset.card_range]

/-- C6 witness: the layout evaluated on the concrete description
`td_nocap` (`zero` = 0, `pc` = 3, all registers 1 byte wide). -/
theorem C6_gpr_transfer_layout_witness :
    riscv_fill_gregset td_nocap rc_lin buf_lin 0 = rc_lin (find_regno td_nocap regname_pc) 0 ∧
    riscv_fill_gregset td_nocap rc_lin buf_lin
        (1 * register_size td_nocap (find_regno td_nocap regname_pc) + 0)
      = rc_lin (find_regno td_nocap regname_zero + 1) 0 ∧
    riscv_store_gregset td_nocap rc_lin buf_lin (find_regno td_nocap regname_pc) 0
      = buf_lin 0 ∧
    riscv_store_gregset td_nocap rc_lin buf_lin (find_regno td_nocap regname_zero + 2) 0
      = buf_lin (2 * register_size td_nocap (find_regno td_nocap regname_pc) + 0) ∧
    riscv_store_gregset td_nocap rc_lin buf_lin (find_regno td_nocap regname_zero) 0 = 0 ∧
    riscv_store_gregset td_nocap rc_lin buf_lin 50 0 = rc_lin 50 0 ∧
    (Finset.image (fun i => find_regno td_nocap regname_zero + i)
        (Finset.range (find_regno td_nocap regname_pc - find_regno td_nocap regname_zero + 1))).card
      = find_regno td_nocap regname_pc - find_regno td_nocap regname_zero + 1 := by
  have h := C6_gpr_transfer_layout td_nocap rc_lin buf_lin rfl (by decide)
    (fun i _ _ => Nat.le_refl 1)
  have hr : ∀ i, i ≤ find_regno td_nocap regname_pc - find_regno td_nocap regname_zero →
      (50 : Nat) ≠ find_regno td_nocap regname_zero + i := by
    intro i hi
    have e1 : find_regno td_nocap regname_zero = 0 := rfl
    have e2 : find_regno td_nocap regname_pc = 3 := rfl
    omega
  exact ⟨h.1 0 (by decide), h.2.1 1 (by decide) (by decide) 0 (by decide),
    h.2.2.1 0 (by decide), h.2.2.2.1 2 (by decide) (by decide) 0 (by decide),
    h.2.2.2.2.1 0 (by decide), h.2.2.2.2.2.1 50 hr 0, h.2.2.2.2.2.2⟩

theorem collect_register_at_in0 (td : target_desc) (rc : Regcache) (regno : Nat)
    (buf : Buf) (j : Nat) (hj : j < register_size td regno) :
    collect_register td rc regno buf 0 j = rc regno j := by
  have h := collect_register_at_in td rc regno buf 0 j hj
  rwa [Nat.zero_add] at h

/-! ## Theorems: capability GPR collect layout (claim C7) -/

/-- C7.  With the capability feature, `riscv_fill_gregset` writes `pcc`
at buffer offset 0, `ddc` at offset `(pcc − cnull) × registerWidth`, the
remaining capability registers `cnull + i` at offsets `i × registerWidth`
(ascending), and then performs the second, plain-register pass into the
same region with the `pc`/`zero` numbers and widths.  Consequently, in
the final buffer: slot 0 holds `pc`'s bytes overlaid on `pcc`'s; slot `i`
(for `1 ≤ i < pcc − cnull`) holds `zero + i`'s bytes overlaid on
`cnull + i`'s; and the `ddc` slot is intact.  Hypotheses: `cnull < pcc`,
`zero < pc`, both banks span the same number of registers, and no
written register is wider than the capability stride. -/
theorem C7_cheri_fill_layout (td : target_desc) (rc : Regcache) (buf : Buf)
    (hch : tdesc_contains_feature td feature_cheri = true)
    (hcc : find_regno td regname_cnull < find_regno td regname_pcc)
    (hzp : find_regno td regname_zero < find_regno td regname_pc)
    (heq : find_regno td regname_pc - find_regno td regname_zero
         = find_regno td regname_pcc - find_regno td regname_cnull)
    (hpc : register_size td (find_regno td regname_pc) ≤
         register_size td (find_regno td regname_pcc))
    (hcap : ∀ i, 1 ≤ i → i < find_regno td regname_pcc - find_regno td regname_cnull →
       register_size td (find_regno td regname_cnull + i) ≤
         register_size td (find_regno td regname_pcc))
    (hint : ∀ i, 1 ≤ i → i < find_regno td regname_pc - find_regno td regname_zero →
       register_size td (find_regno td regname_zero + i) ≤
         register_size td (find_regno td regname_pcc)) :
    (∀ j, j < register_size td (find_regno td regname_pc) →
       riscv_fill_gregset td rc buf j = rc (find_regno td regname_pc) j) ∧
    (∀ j, register_size td (find_regno td regname_pc) ≤ j →
       j < register_size td (find_regno td regname_pcc) →
       riscv_fill_gregset td rc buf j = rc (find_regno td regname_pcc) j) ∧
    (∀ i, 1 ≤ i → i < find_regno td regname_pcc - find_regno td regname_cnull →
       ∀ j, j < register_size td (find_regno td regname_zero + i) →
         riscv_fill_gregset td rc buf
             (i * register_size td (find_regno td regname_pcc) + j)
           = rc (find_regno td regname_zero + i) j) ∧
    (∀ i, 1 ≤ i → i < find_regno td regname_pcc - find_regno td regname_cnull →
       ∀ j, register_size td (find_regno td regname_zero + i) ≤ j →
         j < register_size td (find_regno td regname_cnull + i) →
         riscv_fill_gregset td rc buf
             (i * register_size td (find_regno td regname_pcc) + j)
           = rc (find_regno td regname_cnull + i) j) ∧
    (∀ j, j < register_size td (find_regno td regname_ddc) →
       riscv_fill_gregset td rc buf
           ((find_regno td regname_pcc - find_regno td regname_cnull) *
             register_size td (find_regno td regname_pcc) + j)
         = rc (find_regno td regname_ddc) j) := by
  rw [riscv_fill_gregset_cheri td rc buf hch]
  simp only [collect_register_by_name]
  refine ⟨?_, ?_, ?_, ?_, ?_⟩
  · intro j hj
    rw [fillRegs_at_out td rc _ _ _ _ _ _ (fun i hi1 hi2 => by
      have hR : register_size td (find_regno td regname_pcc) ≤
          i * register_size td (find_regno td regname_pcc) :=
        Nat.le_mul_of_pos_left _ (by omega)
      omega)]
    exact collect_register_at_in0 td rc _ _ j hj
  · intro j hj1 hj2
    rw [fillRegs_at_out td rc _ _ _ _ _ _ (fun i hi1 hi2 => by
      have hR : register_size td (find_regno td regname_pcc) ≤
          i * register_size td (find_regno td regname_pcc) :=
        Nat.le_mul_of_pos_left _ (by omega)
      omega)]
    rw [collect_register_at_out td rc _ _ 0 _ (Or.inr (by omega))]
    rw [fillRegs_at_out td rc _ _ _ _ _ _ (fun i hi1 hi2 => by
      have hR : register_size td (find_regno td regname_pcc) ≤
          i * register_size td (find_regno td regname_pcc) :=
        Nat.le_mul_of_pos_left _ (by omega)
      omega)]
    rw [collect_register_at_out td rc _ _ _ _ (Or.inl (by
      have hR : register_size td (find_regno td regname_pcc) ≤
          (find_regno td regname_pcc - find_regno td regname_cnull) *
            register_size td (find_regno td regname_pcc) :=
        Nat.le_mul_of_pos_left _ (by omega)
      omega))]
    have h := collect_register_at_in td rc (find_regno td regname_pcc) buf 0 j hj2
    rw [Nat.zero_add] at h
    exact h
  · intro i hi1 hi2 j hj
    exact fillRegs_at_in td rc _ _ 1 _ _ i j
      (fun k hk1 hk2 => hint k hk1 (by omega)) hi1 (by omega) hj
  · intro i hi1 hi2 j hj1 hj2
    rw [fillRegs_at_out td rc _ _ _ _ _ _ (fun k hk1 hk2 => by
      rcases Nat.lt_trichotomy k i with hki | rfl | hik
      · right
        have hs := hint k hk1 (by omega)
        have hsucc : (k + 1) * register_size td (find_regno td regname_pcc) =
            k * register_size td (find_regno td regname_pcc) +
              register_size td (find_regno td regname_pcc) := Nat.succ_mul k _
        have hm : (k + 1) * register_size td (find_regno td regname_pcc) ≤
            i * register_size td (find_regno td regname_pcc) :=
          Nat.mul_le_mul_right _ (by omega)
        omega
      · right
        omega
      · left
        have hcapi := hcap i hi1 hi2
        have hsucc : (i + 1) * register_size td (find_regno td regname_pcc) =
            i * register_size td (find_regno td regname_pcc) +
              register_size td (find_regno td regname_pcc) := Nat.succ_mul i _
        have hm : (i + 1) * register_size td (find_regno td regname_pcc) ≤
            k * register_size td (find_regno td regname_pcc) :=
          Nat.mul_le_mul_right _ (by omega)
        omega)]
    rw [collect_register_at_out td rc _ _ 0 _ (Or.inr (by
      have hR : register_size td (find_regno td regname_pcc) ≤
          i * register_size td (find_regno td regname_pcc) :=
        Nat.le_mul_of_pos_left _ (by omega)
      omega))]
    exact fillRegs_at_in td rc _ _ 1 _ _ i j
      (fun k hk1 hk2 => hcap k hk1 (by omega)) hi1 (by omega) hj2
  · intro j hj
    rw [fillRegs_at_out td rc _ _ _ _ _ _ (fun k hk1 hk2 => by
      right
      have hs := hint k hk1 (by omega)
      have hsucc : (k + 1) * register_size td (find_regno td regname_pcc) =
          k * register_size td (find_regno td regname_pcc) +
            register_size td (find_regno td regname_pcc) := Nat.succ_mul k _
      have hm : (k + 1) * register_size td (find_regno td regname_pcc) ≤
          (find_regno td regname_pcc - find_regno td regname_cnull) *
            register_size td (find_regno td regname_pcc) :=
        Nat.mul_le_mul_right _ (by omega)
      omega)]
    rw [collect_register_at_out td rc _ _ 0 _ (Or.inr (by
      have hR : register_size td (find_regno td regname_pcc) ≤
          (find_regno td regname_pcc - find_regno td regname_cnull) *
            register_size td (find_regno td regname_pcc) :=
        Nat.le_mul_of_pos_left _ (by omega)
      omega))]
    rw [fillRegs_at_out td rc _ _ _ _ _ _ (fun k hk1 hk2 => by
      right
      have hs := hcap k hk1 (by omega)
      have hsucc : (k + 1) * register_size td (find_regno td regname_pcc) =
          k * register_size td (find_regno td regname_pcc) +
            register_size td (find_regno td regname_pcc) := Nat.succ_mul k _
      have hm : (k + 1) * register_size td (find_regno td regname_pcc) ≤
          (find_regno td regname_pcc - find_regno td regname_cnull) *
            register_size td (find_regno td regname_pcc) :=
        Nat.mul_le_mul_right _ (by omega)
      omega)]
    exact collect_register_at_in td rc (find_regno td regname_ddc) _ _ j hj

/-- C7 witness: the layout evaluated on the concrete capability
description `td_cap` and cache `rc_lin`. -/
theorem C7_cheri_fill_layout_witness :
    riscv_fill_gregset td_cap rc_lin buf_zero 0 = rc_lin (find_regno td_cap regname_pc) 0 ∧
    riscv_fill_gregset td_cap rc_lin buf_zero 1 = rc_lin (find_regno td_cap regname_pcc) 1 ∧
    riscv_fill_gregset td_cap rc_lin buf_zero
        (1 * register_size td_cap (find_regno td_cap regname_pcc) + 0)
      = rc_lin (find_regno td_cap regname_zero + 1) 0 ∧
    riscv_fill_gregset td_cap rc_lin buf_zero
        (1 * register_size td_cap (find_regno td_cap regname_pcc) + 1)
      = rc_lin (find_regno td_cap regname_cnull + 1) 1 ∧
    riscv_fill_gregset td_cap rc_lin buf_zero
        ((find_regno td_cap regname_pcc - find_regno td_cap regname_cnull) *
          register_size td_cap (find_regno td_cap regname_pcc) + 0)
      = rc_lin (find_regno td_cap regname_ddc) 0 := by
  have e1 : find_regno td_cap regname_zero = 0 := rfl
  have e2 : find_regno td_cap regname_pc = 2 := rfl
  have e3 : find_regno td_cap regname_cnull = 10 := rfl
  have e4 : find_regno td_cap regname_pcc = 12 := rfl
  have hcap : ∀ i, 1 ≤ i →
      i < find_regno td_cap regname_pcc - find_regno td_cap regname_cnull →
      register_size td_cap (find_regno td_cap regname_cnull + i) ≤
        register_size td_cap (find_regno td_cap regname_pcc) := by
    intro i hi1 hi2
    have hi : i = 1 := by omega
    subst hi
    decide
  have hint : ∀ i, 1 ≤ i →
      i < find_regno td_cap regname_pc - find_regno td_cap regname_zero →
      register_size td_cap (find_regno td_cap regname_zero + i) ≤
        register_size td_cap (find_regno td_cap regname_pcc) := by
    intro i hi1 hi2
    have hi : i = 1 := by omega
    subst hi
    decide
  have h := C7_cheri_fill_layout td_cap rc_lin buf_zero rfl (by decide) (by decide)
    (by decide) (by decide) hcap hint
  exact ⟨h.1 0 (by decide), h.2.1 1 (by decide) (by decide),
    h.2.2.1 1 (by decide) (by decide) 0 (by decide),
    h.2.2.2.1 1 (by decide) (by decide) 1 (by decide) (by decide),
    h.2.2.2.2 0 (by decide)⟩

/-! ## The static regset table -/

/-- The regset category (`GENERAL_REGS` / `OPTIONAL_REGS` as used here). -/
inductive regset_type where
  | GENERAL_REGS
  | OPTIONAL_REGS
deriving DecidableEq

/-- Which fill callback a table row carries (the functions defined in
this file, referenced by name as the C table stores function pointers). -/
inductive fill_fn where
  | fill_gregset
  | fill_fpregset
deriving DecidableEq

/-- Which store callback a table row carries. -/
inductive store_fn where
  | store_gregset
  | store_fpregset
deriving DecidableEq

/-- One row of `struct regset_info`. -/
structure regset_info where
  get_request : Nat
  set_request : Nat
  nt_type : Nat
  size : Nat
  regset_kind : regset_type
  fill_function : Option fill_fn
  store_function : Option store_fn
deriving DecidableEq

/-- `PTRACE_GETREGSET` (asm/ptrace.h). -/
def PTRACE_GETREGSET : Nat := 0x4204

/-- `PTRACE_SETREGSET` (asm/ptrace.h). -/
def PTRACE_SETREGSET : Nat := 0x4205

/-- `NT_PRSTATUS` (elf/common.h). -/
def NT_PRSTATUS : Nat := 1

/-- `NT_FPREGSET` (elf/common.h). -/
def NT_FPREGSET : Nat := 2

/-- `#define MAX_REGSET_SIZE (33 * 16)` — 33 CHERI registers of 16 bytes. -/
def MAX_REGSET_SIZE : Nat := 33 * 16

/-- Modelled from the spec: `sizeof (struct __riscv_mc_q_ext_state)` (glibc
header, not under `src/`): 32 quad-precision registers of 16 bytes each
plus the 4-byte `fcsr` and 12 bytes of reserved padding. -/
def sizeof_riscv_mc_q_ext_state : Nat := 32 * 16 + 4 + 12

/-- Modelled from the spec: `sizeof (struct __riscv_mc_d_ext_state)`:
32 double-precision registers of 8 bytes each plus the 4-byte `fcsr`
and alignment padding. -/
def sizeof_riscv_mc_d_ext_state : Nat := 32 * 8 + 4 + 4

/-- Modelled from the spec: `sizeof (struct __riscv_mc_f_ext_state)`:
32 single-precision registers of 4 bytes each plus the 4-byte `fcsr`. -/
def sizeof_riscv_mc_f_ext_state : Nat := 32 * 4 + 4

/-- `static struct regset_info riscv_regsets[]` (without the trailing
`NULL_REGSET` sentinel): the general-purpose row with a NULL fill
callback and `riscv_store_gregset`, then the three optional
floating-point rows — quad, double, single — sharing
`riscv_fill_fpregset`/`riscv_store_fpregset` and differing only in
declared size. -/
def riscv_regsets : List regset_info :=
  [ { get_request := PTRACE_GETREGSET, set_request := PTRACE_SETREGSET,
      nt_type := NT_PRSTATUS, size := MAX_REGSET_SIZE,
      regset_kind := regset_type.GENERAL_REGS,
      fill_function := none, store_function := some store_fn.store_gregset },
    { get_request := PTRACE_GETREGSET, set_request := PTRACE_SETREGSET,
      nt_type := NT_FPREGSET, size := sizeof_riscv_mc_q_ext_state,
      regset_kind := regset_type.OPTIONAL_REGS,
      fill_function := some fill_fn.fill_fpregset,
      store_function := some store_fn.store_fpregset },
    { get_request := PTRACE_GETREGSET, set_request := PTRACE_SETREGSET,
      nt_type := NT_FPREGSET, size := sizeof_riscv_mc_d_ext_state,
      regset_kind := regset_type.OPTIONAL_REGS,
      fill_function := some fill_fn.fill_fpregset,
      store_function := some store_fn.store_fpregset },
    { get_request := PTRACE_GETREGSET, set_request := PTRACE_SETREGSET,
      nt_type := NT_FPREGSET, size := sizeof_riscv_mc_f_ext_state,
      regset_kind := regset_type.OPTIONAL_REGS,
      fill_function := some fill_fn.fill_fpregset,
      store_function := some store_fn.store_fpregset } ]

/-- Modelled from the spec: the generic transfer loop (in
`gdbserver/linux-low.cc`, not under `src/`) tries the candidate rows in
table order and selects the first whose declared size matches the size
reported by the transfer call. -/
def select_regset (candidates : List regset_info) (reported : Nat) : Option regset_info :=
  candidates.find? (fun r => r.size == reported)

/-- The floating-point candidate rows: those with note kind `NT_FPREGSET`,
in table order. -/
def riscv_fp_regsets : List regset_info :=
  riscv_regsets.filter (fun r => r.nt_type == NT_FPREGSET)

/-- The interpretation of a row's fill callback as the function defined
in this file (the C table stores the function pointer itself). -/
def apply_fill : fill_fn → target_desc → Regcache → Buf → Buf
  | fill_fn.fill_gregset => riscv_fill_gregset
  | fill_fn.fill_fpregset => riscv_fill_fpregset

/-- Modelled from the spec: for a set-registers transfer the generic loop
(`regsets_store_inferior_registers`, not under `src/`) serializes cache
contents into the kernel-bound buffer through the row's fill callback; a
row whose fill callback is NULL serializes nothing. -/
def serialize_row (row : regset_info) (td : target_desc) (rc : Regcache) (buf : Buf) :
    Option Buf :=
  row.fill_function.map (fun f => apply_fill f td rc buf)

/-! ## Theorems: regset table (claims C8, C10) -/

/-- C8.  The floating-point candidate rows form the ordered sublist
quad, double, single of `riscv_regsets`: all three share the same fill
and store callbacks and the same requests/note kind, differing only in
declared size (528 > 264 > 132, pairwise distinct); selecting the first
candidate whose declared size equals the quad layout's size yields the
quad row — whose size differs from the double- and single-precision
sizes — and likewise for the other two sizes. -/
theorem C8_fp_regset_selection :
    (riscv_fp_regsets.map (fun r => r.size) =
      [sizeof_riscv_mc_q_ext_state, sizeof_riscv_mc_d_ext_state,
        sizeof_riscv_mc_f_ext_state]) ∧
    (∀ r ∈ riscv_fp_regsets,
      r.fill_function = some fill_fn.fill_fpregset ∧
      r.store_function = some store_fn.store_fpregset ∧
      r.get_request = PTRACE_GETREGSET ∧ r.set_request = PTRACE_SETREGSET ∧
      r.nt_type = NT_FPREGSET ∧ r.regset_kind = regset_type.OPTIONAL_REGS) ∧
    sizeof_riscv_mc_q_ext_state ≠ sizeof_riscv_mc_d_ext_state ∧
    sizeof_riscv_mc_q_ext_state ≠ sizeof_riscv_mc_f_ext_state ∧
    sizeof_riscv_mc_d_ext_state ≠ sizeof_riscv_mc_f_ext_state ∧
    (select_regset riscv_fp_regsets sizeof_riscv_mc_q_ext_state =
      riscv_fp_regsets.head?) ∧
    (select_regset riscv_fp_regsets sizeof_riscv_mc_q_ext_state).map
        (fun r => r.size) = some sizeof_riscv_mc_q_ext_state ∧
    (select_regset riscv_fp_regsets sizeof_riscv_mc_d_ext_state).map
        (fun r => r.size) = some sizeof_riscv_mc_d_ext_state ∧
    (select_regset riscv_fp_regsets sizeof_riscv_mc_f_ext_state).map
        (fun r => r.size) = some sizeof_riscv_mc_f_ext_state := by
  refine ⟨by decide, by decide, by decide, by decide, by decide, by decide, by decide,
    by decide, by decide⟩

/-- C10.  The general-purpose row of `riscv_regsets` registers a NULL
fill callback and `riscv_store_gregset` as its store callback, so a
set-registers transfer through this row serializes nothing from the
cache into the kernel-bound buffer — even though the file does define a
general-purpose fill function (`apply_fill fill_fn.fill_gregset` *is*
`riscv_fill_gregset`), it is not wired into the table. -/
theorem C10_gregset_fill_not_wired (row : regset_info)
    (hrow : row ∈ riscv_regsets) (hkind : row.regset_kind = regset_type.GENERAL_REGS) :
    row.fill_function = none ∧
    row.store_function = some store_fn.store_gregset ∧
    row.nt_type = NT_PRSTATUS ∧
    (∀ td rc buf, serialize_row row td rc buf = none) ∧
    apply_fill fill_fn.fill_gregset = riscv_fill_gregset := by
  have hnone : row.fill_function = none ∧
      row.store_function = some store_fn.store_gregset ∧ row.nt_type = NT_PRSTATUS := by
    fin_cases hrow <;> simp_all
  refine ⟨hnone.1, hnone.2.1, hnone.2.2, ?_, rfl⟩
  intro td rc buf
  rw [serialize_row, hnone.1]
  rfl

/-- C10 witness: the general row, looked up concretely, serializes
nothing. -/
theorem C10_gregset_fill_not_wired_witness :
    serialize_row
      { get_request := PTRACE_GETREGSET, set_request := PTRACE_SETREGSET,
        nt_type := NT_PRSTATUS, size := MAX_REGSET_SIZE,
        regset_kind := regset_type.GENERAL_REGS,
        fill_function := none, store_function := some store_fn.store_gregset }
      td_nocap rc_lin buf_zero = none :=
  (C10_gregset_fill_not_wired _ (by decide) rfl).2.2.2.1 td_nocap rc_lin buf_zero

/-! ## Theorems: PC accessors (claim C9) -/

/-- C9.  `low_get_pc` and `low_set_pc` look up the width of the `pc`
register in the active description at call time and dispatch to the
64-bit cache accessor exactly when that width is 8 bytes, and to the
32-bit accessor in every other case (for every description, hence for
every descriptor the probe can produce). -/
theorem C9_pc_accessor_dispatch (td : target_desc)
    (get64 get32 : Regcache → Nat) (set64 set32 : Regcache → Nat → Regcache)
    (rc : Regcache) (newpc : Nat) :
    (register_size td (find_regno td regname_pc) = 8 →
      low_get_pc td get64 get32 rc = get64 rc ∧
      low_set_pc td set64 set32 rc newpc = set64 rc newpc) ∧
    (register_size td (find_regno td regname_pc) ≠ 8 →
      low_get_pc td get64 get32 rc = get32 rc ∧
      low_set_pc td set64 set32 rc newpc = set32 rc newpc) := by
  constructor
  · intro h8
    unfold low_get_pc low_set_pc
    rw [if_pos h8, if_pos h8]
    exact ⟨rfl, rfl⟩
  · intro h8
    unfold low_get_pc low_set_pc
    rw [if_neg h8, if_neg h8]
    exact ⟨rfl, rfl⟩

/-- C9 witness: dispatch evaluated on two concrete descriptions, one with
an 8-byte `pc` and one (td_nocap) with a 1-byte `pc`. -/
theorem C9_pc_accessor_dispatch_witness :
    low_get_pc { features := [], regno := fun _ => 0, regsize := fun _ => 8 }
        (fun _ => 64) (fun _ => 32) rc_lin = 64 ∧
    low_get_pc td_nocap (fun _ => 64) (fun _ => 32) rc_lin = 32 ∧
    low_set_pc td_nocap (fun rc _ => rc) (fun _ _ => rc_lin) rc_lin 5 = rc_lin := by
  have h1 := C9_pc_accessor_dispatch
    { features := [], regno := fun _ => 0, regsize := fun _ => 8 }
    (fun _ => 64) (fun _ => 32) (fun rc _ => rc) (fun _ _ => rc_lin) rc_lin 5
  have h2 := C9_pc_accessor_dispatch td_nocap
    (fun _ => 64) (fun _ => 32) (fun rc _ => rc) (fun _ _ => rc_lin) rc_lin 5
  exact ⟨(h1.1 rfl).1, (h2.2 (by decide)).1, (h2.2 (by decide)).2⟩

/-- C8 witness: the shared-callback property applied to the concrete quad
row of the candidate list. -/
theorem C8_fp_regset_selection_witness :
    ({ get_request := PTRACE_GETREGSET, set_request := PTRACE_SETREGSET,
       nt_type := NT_FPREGSET, size := sizeof_riscv_mc_q_ext_state,
       regset_kind := regset_type.OPTIONAL_REGS,
       fill_function := some fill_fn.fill_fpregset,
       store_function := some store_fn.store_fpregset } : regset_info).fill_function
      = some fill_fn.fill_fpregset ∧
    ({ get_request := PTRACE_GETREGSET, set_request := PTRACE_SETREGSET,
       nt_type := NT_FPREGSET, size := sizeof_riscv_mc_q_ext_state,
       regset_kind := regset_type.OPTIONAL_REGS,
       fill_function := some fill_fn.fill_fpregset,
       store_function := some store_fn.store_fpregset } : regset_info).store_function
      = some store_fn.store_fpregset := by
  have h := C8_fp_regset_selection.2.1
    { get_request := PTRACE_GETREGSET, set_request := PTRACE_SETREGSET,
      nt_type := NT_FPREGSET, size := sizeof_riscv_mc_q_ext_state,
      regset_kind := regset_type.OPTIONAL_REGS,
      fill_function := some fill_fn.fill_fpregset,
      store_function := some store_fn.store_fpregset } (by decide)
  exact ⟨h.1, h.2.1⟩
